import Mathlib

/-!
Verification of the Pod-manifest schema validator.

The Go sources are embedded shallowly:
  - `yaml.Node` becomes `Node` (kind, value, line, content);
  - the mutable `ErrorCollector` becomes explicit list concatenation in
    traversal order, and the `Validator` struct carries its error list;
  - the `for i := 0; i < len(Content); i += 2` key/value loops become
    `pairList`, which yields `none` on an odd-length child list (in Go that
    loop indexes `Content[i+1]` out of range and the process aborts, so no
    error list is ever returned; `none` models that outcome);
  - `strconv.Atoi` becomes `atoi` (optional sign, decimal digits, 64-bit
    signed range);
  - the compiled regular expressions become executable character-list
    matchers with the same anchoring semantics as Go's regexp package.
-/

namespace YamlValidator

/-- Node kinds of the external document parser (`yaml.Kind`). -/
inductive Kind where
  | document
  | sequence
  | mapping
  | scalar
  | alias
deriving DecidableEq, Repr

/-- One parsed document element (`yaml.Node`): kind, scalar value,
1-based source line, and ordered children. -/
structure Node where
  kind : Kind
  value : String
  line : Nat
  content : List Node

/-- One detected violation (`ValidationError`). -/
structure ValidationError where
  filePath : String
  line : Nat
  message : String
deriving DecidableEq, Repr

/-- Constant `APIVersionExpected` from constants.go. -/
def APIVersionExpected : String := "v1"

/-- Constant `KindExpected` from constants.go. -/
def KindExpected : String := "Pod"

/-- Constant `SupportedOSNames` from constants.go. -/
def SupportedOSNames : List String := ["linux", "windows"]

/-- Constant `SupportedProtocols` from constants.go. -/
def SupportedProtocols : List String := ["TCP", "UDP"]

/-- Constant `PortNumberMin` from constants.go. -/
def PortNumberMin : Int := 1

/-- Constant `PortNumberMax` from constants.go. -/
def PortNumberMax : Int := 65535

/-- Modelled from the spec: the helper `ContainsString` is called by the
validator but its definition is not among the provided sources; the spec
describes the checks using it as membership in a fixed supported set. -/
def ContainsString (s : String) (l : List String) : Bool := l.contains s

/-- Decimal digit test, `[0-9]` of the Go regexp package. -/
def isDigit (c : Char) : Bool := decide ('0' ≤ c) && decide (c ≤ '9')

/-- Lower-case ASCII letter test, `[a-z]`. -/
def isLowerAlpha (c : Char) : Bool := decide ('a' ≤ c) && decide (c ≤ 'z')

/-- Numeric value of a digit character. -/
def digitVal (c : Char) : Nat := c.toNat - 48

/-- Value of a non-empty digit string, most significant digit first. -/
def digitsToNat (l : List Char) : Nat := l.foldl (fun a c => a * 10 + digitVal c) 0

/-- Largest 64-bit signed integer (Go `int` on a 64-bit platform). -/
def intMax : Int := 9223372036854775807

/-- Smallest 64-bit signed integer. -/
def intMin : Int := -9223372036854775808

/-- `strconv.Atoi`: optional sign, one or more decimal digits, value within
the 64-bit signed range; anything else is an error (`none`). -/
def atoi (s : String) : Option Int :=
  let p : Int × List Char :=
    match s.data with
    | '+' :: rest => (1, rest)
    | '-' :: rest => (-1, rest)
    | l => (1, l)
  if p.2 = [] then none
  else if p.2.all isDigit then
    let v : Int := p.1 * (digitsToNat p.2 : Int)
    if v < intMin ∨ intMax < v then none else some v
  else none

/-- Split a character list at underscores (used for `RegexSnakeCase`). -/
def splitUnderscore : List Char → List (List Char)
  | [] => [[]]
  | c :: rest =>
    if c = '_' then [] :: splitUnderscore rest
    else
      match splitUnderscore rest with
      | [] => [[c]]
      | g :: gs => (c :: g) :: gs

/-- `RegexSnakeCase.MatchString`: the whole string matches
`[a-z]+(_[a-z]+)*` anchored on both sides, i.e. non-empty lower-case
groups separated by single underscores. -/
def snakeCaseMatch (s : String) : Bool :=
  (splitUnderscore s.data).all (fun g => !g.isEmpty && g.all isLowerAlpha)

/-- Strip an exact character-list prefix, or fail. -/
def dropPrefixChars : List Char → List Char → Option (List Char)
  | [], rest => some rest
  | _ :: _, [] => none
  | p :: ps, c :: cs => if c = p then dropPrefixChars ps cs else none

/-- Literal prefix of `RegexImage`. -/
def imagePrefix : String := "registry.bigbrother.io/"

/-- Whether some colon occurs that leaves at least one character on each
side: the `(.+):(.+)` part of `RegexImage`. -/
def hasInteriorColon (l : List Char) : Bool :=
  match l with
  | [] => false
  | _ :: rest => rest.dropLast.contains ':'

/-- `RegexImage.MatchString`: anchored match of
`registry\.bigbrother\.io/(.+):(.+)` where `.` excludes newlines. -/
def imageMatch (s : String) : Bool :=
  match dropPrefixChars imagePrefix.data s.data with
  | none => false
  | some rest => rest.all (fun c => c != '\n') && hasInteriorColon rest

/-- `RegexMemory.FindStringSubmatch` on `^(\d+)(Mi|Gi|Ki)$`: when the whole
string is digits followed by a two-letter unit, return the captured digit
group, else `none`. -/
def memoryMatch (s : String) : Option String :=
  let cs := s.data
  let pre := cs.take (cs.length - 2)
  let suf := cs.drop (cs.length - 2)
  if (suf = ['M', 'i'] ∨ suf = ['G', 'i'] ∨ suf = ['K', 'i']) ∧ pre ≠ [] ∧ pre.all isDigit
  then some (String.mk pre)
  else none

/-- `RegexAbsolutePath.MatchString` on `^/.*`: the string starts with a
slash (the `.*` may match the empty remainder, so nothing more is needed). -/
def pathMatch (s : String) : Bool :=
  match s.data with
  | '/' :: _ => true
  | _ => false

/-- The `for i := 0; i < len(content); i += 2` pairing of the Go loops:
children taken two at a time as key/value pairs. An odd-length list makes
the Go loop index out of range, so it yields `none`. -/
def pairList : List Node → Option (List (Node × Node))
  | [] => some []
  | [_] => none
  | k :: v :: rest => (pairList rest).map (fun ps => (k, v) :: ps)

/-- Run a dispatch function over key/value pairs in order, concatenating
the produced errors; `none` aborts the whole run. -/
def collectErrs (d : Node → Node → Option (List ValidationError)) :
    List (Node × Node) → Option (List ValidationError)
  | [] => some []
  | kv :: rest =>
    match d kv.1 kv.2 with
    | none => none
    | some es =>
      match collectErrs d rest with
      | none => none
      | some r => some (es ++ r)

/-- Run an element validator over sequence elements in order, concatenating
the produced errors; `none` aborts the whole run. -/
def collectList (f : Node → Option (List ValidationError)) :
    List Node → Option (List ValidationError)
  | [] => some []
  | n :: rest =>
    match f n with
    | none => none
    | some es =>
      match collectList f rest with
      | none => none
      | some r => some (es ++ r)

/-- The required-field pass run after each key/value loop: one
`"<field> is required"` error, at the parent's line, per required field
that was not visited. -/
def requiredErrors (fp : String) (line : Nat) (required visited : List String) :
    List ValidationError :=
  required.filterMap (fun f =>
    if f ∈ visited then none
    else some ⟨fp, line, f ++ " is required"⟩)

/-- Common shape of the Go object validators: iterate key/value pairs,
dispatch each key, then report missing required fields against the
parent node's line. -/
def validateObject (fp : String) (d : Node → Node → Option (List ValidationError))
    (required : List String) (node : Node) : Option (List ValidationError) :=
  match pairList node.content with
  | none => none
  | some ps =>
    match collectErrs d ps with
    | none => none
    | some des =>
      some (des ++ requiredErrors fp node.line required (ps.map (fun kv => kv.1.value)))

/-- `validateAPIVersion`. -/
def validateAPIVersion (fp : String) (node : Node) : List ValidationError :=
  if node.kind ≠ Kind.scalar ∨ node.value ≠ APIVersionExpected then
    [⟨fp, node.line, "apiVersion has unsupported value '" ++ node.value ++ "'"⟩]
  else []

/-- `validateKind`. -/
def validateKind (fp : String) (node : Node) : List ValidationError :=
  if node.kind ≠ Kind.scalar ∨ node.value ≠ KindExpected then
    [⟨fp, node.line, "kind has unsupported value '" ++ node.value ++ "'"⟩]
  else []

/-- `validateOS`. -/
def validateOS (fp : String) (node : Node) : List ValidationError :=
  if node.kind ≠ Kind.scalar then [⟨fp, node.line, "os must be string"⟩]
  else if !(ContainsString node.value SupportedOSNames) then
    [⟨fp, node.line, "os has unsupported value '" ++ node.value ++ "'"⟩]
  else []

/-- `validateName`; `checkSnakeCase` is true for container names. -/
def validateName (fp : String) (checkSnakeCase : Bool) (node : Node) : List ValidationError :=
  if node.kind ≠ Kind.scalar then [⟨fp, node.line, "name must be string"⟩]
  else if node.value = "" then [⟨fp, node.line, "name is required"⟩]
  else if checkSnakeCase && !(snakeCaseMatch node.value) then
    [⟨fp, node.line, "name has invalid format '" ++ node.value ++ "'"⟩]
  else []

/-- `validateImage`. -/
def validateImage (fp : String) (node : Node) : List ValidationError :=
  if node.kind ≠ Kind.scalar then [⟨fp, node.line, "image must be string"⟩]
  else if !(imageMatch node.value) then
    [⟨fp, node.line, "image has invalid format '" ++ node.value ++ "'"⟩]
  else []

/-- `validatePortNumber`, shared by `containerPort` and `httpGet.port`. -/
def validatePortNumber (fp fieldName : String) (node : Node) : List ValidationError :=
  if node.kind ≠ Kind.scalar then [⟨fp, node.line, fieldName ++ " must be int"⟩]
  else
    match atoi node.value with
    | none => [⟨fp, node.line, fieldName ++ " must be int"⟩]
    | some port =>
      if port < PortNumberMin ∨ port > PortNumberMax then
        [⟨fp, node.line, fieldName ++ " value out of range"⟩]
      else []

/-- `validateProtocol`. -/
def validateProtocol (fp : String) (node : Node) : List ValidationError :=
  if node.kind ≠ Kind.scalar then [⟨fp, node.line, "protocol must be string"⟩]
  else if !(ContainsString node.value SupportedProtocols) then
    [⟨fp, node.line, "protocol has unsupported value '" ++ node.value ++ "'"⟩]
  else []

/-- `validateHTTPPath`. -/
def validateHTTPPath (fp : String) (node : Node) : List ValidationError :=
  if node.kind ≠ Kind.scalar then [⟨fp, node.line, "path must be string"⟩]
  else if !(pathMatch node.value) then
    [⟨fp, node.line, "path has invalid format '" ++ node.value ++ "'"⟩]
  else []

/-- `validateCPU`: a parse failure and a value below one report the same
out-of-range error. -/
def validateCPU (fp : String) (node : Node) : List ValidationError :=
  if node.kind ≠ Kind.scalar then [⟨fp, node.line, "cpu must be int"⟩]
  else
    match atoi node.value with
    | none => [⟨fp, node.line, "cpu value out of range"⟩]
    | some cpu =>
      if cpu < 1 then [⟨fp, node.line, "cpu value out of range"⟩] else []

/-- `validateMemory`. -/
def validateMemory (fp : String) (node : Node) : List ValidationError :=
  if node.kind ≠ Kind.scalar then [⟨fp, node.line, "memory must be string"⟩]
  else
    match memoryMatch node.value with
    | none => [⟨fp, node.line, "memory has invalid format '" ++ node.value ++ "'"⟩]
    | some amt =>
      match atoi amt with
      | none => [⟨fp, node.line, "memory value out of range"⟩]
      | some amount =>
        if amount < 1 then [⟨fp, node.line, "memory value out of range"⟩] else []

/-- Key dispatch of `validatePort`. -/
def portDispatch (fp : String) (k v : Node) : Option (List ValidationError) :=
  if k.value = "containerPort" then some (validatePortNumber fp "containerPort" v)
  else if k.value = "protocol" then some (validateProtocol fp v)
  else some []

/-- `validatePort`. -/
def validatePort (fp : String) (node : Node) : Option (List ValidationError) :=
  validateObject fp (portDispatch fp) ["containerPort"] node

/-- `validatePorts`. -/
def validatePorts (fp : String) (node : Node) : Option (List ValidationError) :=
  if node.kind ≠ Kind.sequence then some [⟨fp, node.line, "ports must be an array"⟩]
  else collectList (validatePort fp) node.content

/-- Key dispatch of `validateHTTPGet`. -/
def httpGetDispatch (fp : String) (k v : Node) : Option (List ValidationError) :=
  if k.value = "path" then some (validateHTTPPath fp v)
  else if k.value = "port" then some (validatePortNumber fp "port" v)
  else some []

/-- `validateHTTPGet`. -/
def validateHTTPGet (fp : String) (node : Node) : Option (List ValidationError) :=
  validateObject fp (httpGetDispatch fp) ["path", "port"] node

/-- Key dispatch of `validateProbe`. -/
def probeDispatch (fp : String) (k v : Node) : Option (List ValidationError) :=
  if k.value = "httpGet" then validateHTTPGet fp v
  else some []

/-- `validateProbe`, shared by readiness and liveness probes. -/
def validateProbe (fp : String) (node : Node) : Option (List ValidationError) :=
  validateObject fp (probeDispatch fp) ["httpGet"] node

/-- `validateResourceRequirements`: dispatch cpu and memory keys, no
required fields, no kind check. -/
def validateResourceRequirements (fp : String) (node : Node) : Option (List ValidationError) :=
  match pairList node.content with
  | none => none
  | some ps =>
    some ((ps.map (fun kv =>
      if kv.1.value = "cpu" then validateCPU fp kv.2
      else if kv.1.value = "memory" then validateMemory fp kv.2
      else [])).flatten)

/-- `validateResources`: iterate the key/value pairs and validate every
value as a resource-requirements object; the keys are ignored and no kind
check is performed. -/
def validateResources (fp : String) (node : Node) : Option (List ValidationError) :=
  match pairList node.content with
  | none => none
  | some ps => collectList (validateResourceRequirements fp) (ps.map (fun kv => kv.2))

/-- `validateLabels`. -/
def validateLabels (fp : String) (node : Node) : Option (List ValidationError) :=
  if node.kind ≠ Kind.mapping then some [⟨fp, node.line, "labels must be a mapping"⟩]
  else
    match pairList node.content with
    | none => none
    | some ps =>
      some (ps.filterMap (fun kv =>
        if kv.2.kind ≠ Kind.scalar then some ⟨fp, kv.2.line, "label value must be string"⟩
        else none))

/-- Key dispatch of `validateContainer`. -/
def containerDispatch (fp : String) (k v : Node) : Option (List ValidationError) :=
  if k.value = "name" then some (validateName fp true v)
  else if k.value = "image" then some (validateImage fp v)
  else if k.value = "ports" then validatePorts fp v
  else if k.value = "readinessProbe" then validateProbe fp v
  else if k.value = "livenessProbe" then validateProbe fp v
  else if k.value = "resources" then validateResources fp v
  else some []

/-- `validateContainer`. -/
def validateContainer (fp : String) (node : Node) : Option (List ValidationError) :=
  validateObject fp (containerDispatch fp) ["name", "image", "resources"] node

/-- `validateContainers`. -/
def validateContainers (fp : String) (node : Node) : Option (List ValidationError) :=
  if node.kind ≠ Kind.sequence then some [⟨fp, node.line, "containers must be an array"⟩]
  else collectList (validateContainer fp) node.content

/-- Key dispatch of `validateSpec`. -/
def specDispatch (fp : String) (k v : Node) : Option (List ValidationError) :=
  if k.value = "os" then some (validateOS fp v)
  else if k.value = "containers" then validateContainers fp v
  else some []

/-- `validateSpec`. -/
def validateSpec (fp : String) (node : Node) : Option (List ValidationError) :=
  validateObject fp (specDispatch fp) ["containers"] node

/-- Key dispatch of `validateMetadata`. -/
def metadataDispatch (fp : String) (k v : Node) : Option (List ValidationError) :=
  if k.value = "name" then some (validateName fp false v)
  else if k.value = "labels" then validateLabels fp v
  else some []

/-- `validateMetadata`. -/
def validateMetadata (fp : String) (node : Node) : Option (List ValidationError) :=
  validateObject fp (metadataDispatch fp) ["name"] node

/-- Key dispatch of `validatePod`. -/
def podDispatch (fp : String) (k v : Node) : Option (List ValidationError) :=
  if k.value = "apiVersion" then some (validateAPIVersion fp v)
  else if k.value = "kind" then some (validateKind fp v)
  else if k.value = "metadata" then validateMetadata fp v
  else if k.value = "spec" then validateSpec fp v
  else some []

/-- `validatePod`. -/
def validatePod (fp : String) (node : Node) : Option (List ValidationError) :=
  validateObject fp (podDispatch fp) ["apiVersion", "kind", "metadata", "spec"] node

/-- The loop body of `Validate`: run `validatePod` on every document under
the root, collecting errors in order. -/
def validateRun (fp : String) (root : Node) : Option (List ValidationError) :=
  collectList (validatePod fp) root.content

/-- The `Validator` struct: display path, parsed root, and the
`ErrorCollector`'s accumulated errors. -/
structure Validator where
  filePath : String
  rootNode : Node
  errors : List ValidationError

/-- Method `Validate`: append this run's errors to the collector and
return the collector's whole list, together with the updated validator
(the collector is a field of the receiver, so it persists). -/
def Validator.Validate (v : Validator) : Option (List ValidationError × Validator) :=
  match validateRun v.filePath v.rootNode with
  | none => none
  | some newErrs =>
    some (v.errors ++ newErrs, { v with errors := v.errors ++ newErrs })

/-- Shorthand for a scalar node. -/
def nScalar (v : String) (l : Nat) : Node := ⟨Kind.scalar, v, l, []⟩

/-- Limits mapping of scenario A: `cpu: 1`, `memory: 256Mi`. -/
def limitsA : Node :=
  ⟨Kind.mapping, "", 11,
    [nScalar "cpu" 11, nScalar "1" 11, nScalar "memory" 12, nScalar "256Mi" 12]⟩

/-- Resources mapping of scenario A: `limits: {cpu, memory}`. -/
def resourcesA : Node := ⟨Kind.mapping, "", 10, [nScalar "limits" 10, limitsA]⟩

/-- Container of scenario A. -/
def containerA : Node :=
  ⟨Kind.mapping, "", 7,
    [nScalar "name" 7, nScalar "web_app" 7,
     nScalar "image" 8, nScalar "registry.bigbrother.io/app:1.0" 8,
     nScalar "resources" 9, resourcesA]⟩

/-- Containers sequence of scenario A. -/
def containersA : Node := ⟨Kind.sequence, "", 7, [containerA]⟩

/-- Spec mapping of scenario A. -/
def specA : Node := ⟨Kind.mapping, "", 6, [nScalar "containers" 6, containersA]⟩

/-- Metadata mapping of scenario A. -/
def metadataA : Node := ⟨Kind.mapping, "", 4, [nScalar "name" 4, nScalar "web" 4]⟩

/-- Top-level document mapping of scenario A. -/
def docA : Node :=
  ⟨Kind.mapping, "", 1,
    [nScalar "apiVersion" 1, nScalar "v1" 1,
     nScalar "kind" 2, nScalar "Pod" 2,
     nScalar "metadata" 3, metadataA,
     nScalar "spec" 5, specA]⟩

/-- Parser root of scenario A. -/
def rootA : Node := ⟨Kind.document, "", 1, [docA]⟩

/-- Container of scenario B: name `WebApp`, image `docker.io/app:1.0`. -/
def containerB : Node :=
  ⟨Kind.mapping, "", 7,
    [nScalar "name" 7, nScalar "WebApp" 7,
     nScalar "image" 8, nScalar "docker.io/app:1.0" 8,
     nScalar "resources" 9, resourcesA]⟩

/-- Document of scenario B. -/
def docB : Node :=
  ⟨Kind.mapping, "", 1,
    [nScalar "apiVersion" 1, nScalar "v1" 1,
     nScalar "kind" 2, nScalar "Pod" 2,
     nScalar "metadata" 3, metadataA,
     nScalar "spec" 5,
     ⟨Kind.mapping, "", 6, [nScalar "containers" 6, ⟨Kind.sequence, "", 7, [containerB]⟩]⟩]⟩

/-- Parser root of scenario B. -/
def rootB : Node := ⟨Kind.document, "", 1, [docB]⟩

/-- Claim C1, counterexample: a port node at line 3 whose single pair is
`protocol: HTTP` with the value scalar at line 5. The code emits the
protocol error first (during the key loop, at the value node's line) and
the missing-required error second (after the loop, at the port node's
line), so the claimed output — required error first, both errors at the
port node's line — is not what validation produces. -/
theorem c1_counterexample :
    validatePort "pod.yaml" ⟨Kind.mapping, "", 3, [nScalar "protocol" 4, nScalar "HTTP" 5]⟩ =
      some [⟨"pod.yaml", 5, "protocol has unsupported value 'HTTP'"⟩,
            ⟨"pod.yaml", 3, "containerPort is required"⟩] ∧
    validatePort "pod.yaml" ⟨Kind.mapping, "", 3, [nScalar "protocol" 4, nScalar "HTTP" 5]⟩ ≠
      some [⟨"pod.yaml", 3, "containerPort is required"⟩,
            ⟨"pod.yaml", 3, "protocol has unsupported value 'HTTP'"⟩] := by
  constructor <;> decide

/-- Claim C1 (amended): for every port mapping node whose children are a
single `protocol` pair with scalar value `HTTP`, validation produces
exactly two errors: first the protocol error, carrying the protocol value
node's line, then `containerPort is required`, carrying the port node's
line. -/
theorem c1_protocol_then_required (fp : String) (node k v : Node)
    (hc : node.content = [k, v]) (hk : k.value = "protocol")
    (hvk : v.kind = Kind.scalar) (hv : v.value = "HTTP") :
    validatePort fp node =
      some [⟨fp, v.line, "protocol has unsupported value 'HTTP'"⟩,
            ⟨fp, node.line, "containerPort is required"⟩] := by
  simp [validatePort, validateObject, hc, pairList, collectErrs, portDispatch, hk,
    validateProtocol, hvk, hv, ContainsString, SupportedProtocols, requiredErrors]

/-- Witness for the amended C1 at a concrete port node. -/
theorem c1_witness :
    validatePort "pod.yaml" ⟨Kind.mapping, "", 9, [nScalar "protocol" 9, nScalar "HTTP" 9]⟩ =
      some [⟨"pod.yaml", 9, "protocol has unsupported value 'HTTP'"⟩,
            ⟨"pod.yaml", 9, "containerPort is required"⟩] :=
  c1_protocol_then_required "pod.yaml" _ _ _ rfl rfl rfl rfl

/-- Claim C2, counterexample: scenario B laid out in block style. The
image error is attributed to the image value node's line (8), not the
container node's line (7), so the errors do not both carry the container
node's line number. -/
theorem c2_counterexample :
    validateRun "pod.yaml" rootB =
      some [⟨"pod.yaml", 7, "name has invalid format 'WebApp'"⟩,
            ⟨"pod.yaml", 8, "image has invalid format 'docker.io/app:1.0'"⟩] ∧
    (validateRun "pod.yaml" rootB).map
        (fun es => es.all (fun e => e.line == containerB.line)) = some false := by
  constructor <;> decide

/-- Claim C2 (amended): scenario B yields exactly two errors, in order the
name-format error carrying the name value node's line and the image-format
error carrying the image value node's line; in block layout these are the
container's line and the following line. -/
theorem c2_two_format_errors :
    validateRun "pod.yaml" rootB =
      some [⟨"pod.yaml", 7, "name has invalid format 'WebApp'"⟩,
            ⟨"pod.yaml", 8, "image has invalid format 'docker.io/app:1.0'"⟩] ∧
    containerB.line = 7 := by
  constructor <;> decide

/-- Claim C6: for a scalar node whose value parses as the integer `n`, the
port range check fails exactly when `n < 1` or `n > 65535`, and the cpu
check fails exactly when `n < 1`. -/
theorem c6_range_checks (fp fieldName : String) (node : Node) (n : Int)
    (hk : node.kind = Kind.scalar) (ha : atoi node.value = some n) :
    (validatePortNumber fp fieldName node =
      if n < 1 ∨ 65535 < n then [⟨fp, node.line, fieldName ++ " value out of range"⟩]
      else []) ∧
    (validateCPU fp node =
      if n < 1 then [⟨fp, node.line, "cpu value out of range"⟩] else []) := by
  constructor
  · simp [validatePortNumber, hk, ha, PortNumberMin, PortNumberMax]
  · simp [validateCPU, hk, ha]

/-- Witness for C6 at the boundary values 0, 65536, 1, 65535 for ports and
0, 1 for cpu. -/
theorem c6_witness :
    validatePortNumber "pod.yaml" "containerPort" (nScalar "0" 3) =
      [⟨"pod.yaml", 3, "containerPort value out of range"⟩] ∧
    validatePortNumber "pod.yaml" "containerPort" (nScalar "65536" 3) =
      [⟨"pod.yaml", 3, "containerPort value out of range"⟩] ∧
    validatePortNumber "pod.yaml" "containerPort" (nScalar "1" 3) = [] ∧
    validatePortNumber "pod.yaml" "containerPort" (nScalar "65535" 3) = [] ∧
    validateCPU "pod.yaml" (nScalar "0" 3) = [⟨"pod.yaml", 3, "cpu value out of range"⟩] ∧
    validateCPU "pod.yaml" (nScalar "1" 3) = [] :=
  ⟨((c6_range_checks "pod.yaml" "containerPort" (nScalar "0" 3) 0 rfl (by decide)).1).trans
      (by decide),
   ((c6_range_checks "pod.yaml" "containerPort" (nScalar "65536" 3) 65536 rfl (by decide)).1).trans
      (by decide),
   ((c6_range_checks "pod.yaml" "containerPort" (nScalar "1" 3) 1 rfl (by decide)).1).trans
      (by decide),
   ((c6_range_checks "pod.yaml" "containerPort" (nScalar "65535" 3) 65535 rfl (by decide)).1).trans
      (by decide),
   ((c6_range_checks "pod.yaml" "cpu" (nScalar "0" 3) 0 rfl (by decide)).2).trans (by decide),
   ((c6_range_checks "pod.yaml" "cpu" (nScalar "1" 3) 1 rfl (by decide)).2).trans (by decide)⟩

/-- Appending strings appends their character data. -/
theorem data_append_eq (a b : String) : (a ++ b).data = a.data ++ b.data := rfl

/-- The head character of an appended string is the head of its first part. -/
theorem data_head_append (a b : String) (c : Char) (h : a.data.head? = some c) :
    (a ++ b).data.head? = some c := by
  rw [data_append_eq]
  cases ha : a.data with
  | nil => rw [ha] at h; simp at h
  | cons x xs =>
    rw [ha] at h
    simp only [List.head?_cons, Option.some.injEq] at h
    simp [h]

/-- Strings with different head characters are different. -/
theorem ne_of_data_head (c c' : Char) {a b : String} (ha : a.data.head? = some c)
    (hb : b.data.head? = some c') (h : c ≠ c') : a ≠ b := by
  intro he
  subst he
  rw [ha] at hb
  exact h (Option.some.inj hb)

/-- Every error produced by a successful `collectList` run comes from one
of the traversed nodes. -/
theorem collectList_mem {f : Node → Option (List ValidationError)} {l : List Node} :
    ∀ {es}, collectList f l = some es →
      ∀ e ∈ es, ∃ x ∈ l, ∃ l', f x = some l' ∧ e ∈ l' := by
  induction l with
  | nil =>
    intro es h e he
    simp only [collectList, Option.some.injEq] at h
    subst h
    simp at he
  | cons n rest ih =>
    intro es h e he
    unfold collectList at h
    cases hf : f n with
    | none => rw [hf] at h; simp at h
    | some es1 =>
      rw [hf] at h
      cases hr : collectList f rest with
      | none => rw [hr] at h; simp at h
      | some r =>
        rw [hr] at h
        simp only [Option.some.injEq] at h
        subst h
        rcases List.mem_append.mp he with h1 | h2
        · exact ⟨n, by simp, es1, hf, h1⟩
        · rcases ih hr e h2 with ⟨x, hx, l', hl', hel⟩
          exact ⟨x, by simp [hx], l', hl', hel⟩

/-- Every error produced by a successful `collectErrs` run comes from the
dispatch of one of the traversed pairs. -/
theorem collectErrs_mem {d : Node → Node → Option (List ValidationError)}
    {ps : List (Node × Node)} :
    ∀ {es}, collectErrs d ps = some es →
      ∀ e ∈ es, ∃ kv ∈ ps, ∃ l, d kv.1 kv.2 = some l ∧ e ∈ l := by
  induction ps with
  | nil =>
    intro es h e he
    simp only [collectErrs, Option.some.injEq] at h
    subst h
    simp at he
  | cons kv rest ih =>
    intro es h e he
    unfold collectErrs at h
    cases hf : d kv.1 kv.2 with
    | none => rw [hf] at h; simp at h
    | some es1 =>
      rw [hf] at h
      cases hr : collectErrs d rest with
      | none => rw [hr] at h; simp at h
      | some r =>
        rw [hr] at h
        simp only [Option.some.injEq] at h
        subst h
        rcases List.mem_append.mp he with h1 | h2
        · exact ⟨kv, by simp, es1, hf, h1⟩
        · rcases ih hr e h2 with ⟨x, hx, l', hl', hel⟩
          exact ⟨x, by simp [hx], l', hl', hel⟩

/-- Every cpu error message begins with the letter c. -/
theorem validateCPU_message_head (fp : String) (v : Node) (e : ValidationError)
    (h : e ∈ validateCPU fp v) : e.message.data.head? = some 'c' := by
  unfold validateCPU at h
  split at h
  · simp only [List.mem_singleton] at h; subst h; rfl
  · split at h
    · simp only [List.mem_singleton] at h; subst h; rfl
    · split at h
      · simp only [List.mem_singleton] at h; subst h; rfl
      · simp at h

/-- Every memory error message begins with the letter m. -/
theorem validateMemory_message_head (fp : String) (v : Node) (e : ValidationError)
    (h : e ∈ validateMemory fp v) : e.message.data.head? = some 'm' := by
  unfold validateMemory at h
  split at h
  · simp only [List.mem_singleton] at h; subst h; rfl
  · split at h
    · simp only [List.mem_singleton] at h
      subst h
      exact data_head_append _ _ _ (data_head_append _ _ _ (by decide))
    · split at h
      · simp only [List.mem_singleton] at h; subst h; rfl
      · split at h
        · simp only [List.mem_singleton] at h; subst h; rfl
        · simp at h

/-- Claim C7: `512Mi`, `1Ki`, `1Gi` pass, `512` fails the format check,
`0Mi` fails the range check; in general a scalar memory value passes
exactly when it matches the memory pattern and its captured amount parses
to an integer of at least one. -/
theorem c7_memory_format :
    validateMemory "pod.yaml" (nScalar "512Mi" 3) = [] ∧
    validateMemory "pod.yaml" (nScalar "1Ki" 3) = [] ∧
    validateMemory "pod.yaml" (nScalar "1Gi" 3) = [] ∧
    validateMemory "pod.yaml" (nScalar "512" 3) =
      [⟨"pod.yaml", 3, "memory has invalid format '512'"⟩] ∧
    validateMemory "pod.yaml" (nScalar "0Mi" 3) =
      [⟨"pod.yaml", 3, "memory value out of range"⟩] ∧
    ∀ (fp : String) (node : Node), node.kind = Kind.scalar →
      (validateMemory fp node = [] ↔
        ∃ amt n, memoryMatch node.value = some amt ∧ atoi amt = some n ∧ 1 ≤ n) := by
  refine ⟨by decide, by decide, by decide, by decide, by decide, ?_⟩
  intro fp node hk
  have hkk : ¬ node.kind ≠ Kind.scalar := by simp [hk]
  unfold validateMemory
  rw [if_neg hkk]
  cases hm : memoryMatch node.value with
  | none => simp [hm]
  | some amt =>
    dsimp only
    cases ha : atoi amt with
    | none => simp [ha]
    | some n =>
      dsimp only
      constructor
      · intro h
        refine ⟨amt, n, rfl, ha, ?_⟩
        by_contra hlt
        push_neg at hlt
        rw [if_pos hlt] at h
        simp at h
      · rintro ⟨amt', n', hm', ha', h1⟩
        injection hm' with he
        subst he
        rw [ha, Option.some.injEq] at ha'
        subst ha'
        rw [if_neg (by omega)]

/-- Witness for C7's general characterization at a concrete value. -/
theorem c7_witness :
    (nScalar "2Gi" 4).kind = Kind.scalar ∧
    (validateMemory "pod.yaml" (nScalar "2Gi" 4) = [] ↔
      ∃ amt n, memoryMatch (nScalar "2Gi" 4).value = some amt ∧ atoi amt = some n ∧ 1 ≤ n) :=
  ⟨rfl, c7_memory_format.2.2.2.2.2 "pod.yaml" (nScalar "2Gi" 4) rfl⟩

/-- Resources value carrying a nested cpu defect, for the C10 witness. -/
def resBad : Node :=
  ⟨Kind.mapping, "", 1,
    [nScalar "limits" 1, ⟨Kind.mapping, "", 2, [nScalar "cpu" 2, nScalar "0" 2]⟩]⟩

/-- Claim C10: the resources validator performs no kind check — a
childless value of any kind (such as a scalar) is accepted silently; a
present resources key satisfies the container's required-field check; and
everything the resources validator can report is a cpu or memory error,
never an error about the resources field itself. -/
theorem c10_resources_never_flagged :
    (∀ (fp : String) (node : Node), node.content = [] → validateResources fp node = some []) ∧
    (∀ (fp : String) (line : Nat) (visited : List String), "resources" ∈ visited →
      ∀ e ∈ requiredErrors fp line ["name", "image", "resources"] visited,
        e.message ≠ "resources is required") ∧
    (∀ (fp : String) (node : Node) (es : List ValidationError),
      validateResources fp node = some es →
      ∀ e ∈ es, e.message.data.head? = some 'c' ∨ e.message.data.head? = some 'm') := by
  refine ⟨?_, ?_, ?_⟩
  · intro fp node h
    simp [validateResources, h, pairList, collectList]
  · intro fp line visited hv e he
    unfold requiredErrors at he
    rcases List.mem_filterMap.mp he with ⟨f, hf, heq⟩
    simp only [List.mem_cons, List.not_mem_nil, or_false] at hf
    rcases hf with rfl | rfl | rfl
    · split at heq
      · simp at heq
      · rw [← Option.some.inj heq]; simp
    · split at heq
      · simp at heq
      · rw [← Option.some.inj heq]; simp
    · rw [if_pos hv] at heq
      simp at heq
  · intro fp node es h e he
    unfold validateResources at h
    cases hpl : pairList node.content with
    | none => rw [hpl] at h; simp at h
    | some ps =>
      rw [hpl] at h
      rcases collectList_mem h e he with ⟨x, hx, l', hl', hel⟩
      unfold validateResourceRequirements at hl'
      cases hq : pairList x.content with
      | none => rw [hq] at hl'; simp at hl'
      | some qs =>
        rw [hq] at hl'
        simp only [Option.some.injEq] at hl'
        subst hl'
        rcases List.mem_flatten.mp hel with ⟨L, hL, heL⟩
        rcases List.mem_map.mp hL with ⟨kv, hkv, hLeq⟩
        subst hLeq
        split at heL
        · exact Or.inl (validateCPU_message_head fp kv.2 e heL)
        · split at heL
          · exact Or.inr (validateMemory_message_head fp kv.2 e heL)
          · simp at heL

/-- Witness for C10 at concrete inputs: a scalar resources value is
accepted, a satisfied required check never reports resources, and a
defective nested cpu yields a message starting with c. -/
theorem c10_witness :
    validateResources "pod.yaml" (nScalar "oops" 9) = some [] ∧
    (⟨"pod.yaml", 1, "name is required"⟩ : ValidationError).message ≠ "resources is required" ∧
    ((⟨"pod.yaml", 2, "cpu value out of range"⟩ : ValidationError).message.data.head? = some 'c' ∨
     (⟨"pod.yaml", 2, "cpu value out of range"⟩ : ValidationError).message.data.head? =
       some 'm') :=
  ⟨c10_resources_never_flagged.1 "pod.yaml" (nScalar "oops" 9) rfl,
   c10_resources_never_flagged.2.1 "pod.yaml" 1 ["resources"] (by decide)
     ⟨"pod.yaml", 1, "name is required"⟩ (by decide),
   c10_resources_never_flagged.2.2 "pod.yaml" resBad
     [⟨"pod.yaml", 2, "cpu value out of range"⟩] (by decide)
     ⟨"pod.yaml", 2, "cpu value out of range"⟩ (by decide)⟩

/-- The two errors of scenario B, as collected on a first run. -/
def errsB : List ValidationError :=
  [⟨"pod.yaml", 7, "name has invalid format 'WebApp'"⟩,
   ⟨"pod.yaml", 8, "image has invalid format 'docker.io/app:1.0'"⟩]

/-- A freshly constructed validator for scenario B. -/
def v0 : Validator := ⟨"pod.yaml", rootB, []⟩

/-- Claim C3, counterexample: two invocations of `Validate` on the same
validator do not return identical lists — the collector persists between
calls, so the second call returns the first list concatenated with itself. -/
theorem c3_counterexample :
    v0.Validate = some (errsB, ⟨"pod.yaml", rootB, errsB⟩) ∧
    (⟨"pod.yaml", rootB, errsB⟩ : Validator).Validate =
      some (errsB ++ errsB, ⟨"pod.yaml", rootB, errsB ++ errsB⟩) ∧
    errsB ++ errsB ≠ errsB :=
  ⟨rfl, rfl, by decide⟩

/-- Claim C3 (amended): when a fresh validator's first `Validate` call
returns `r1`, a second call on the same validator returns `r1 ++ r1`,
which equals `r1` only when no errors were found; results of the two runs
agree exactly on valid documents. -/
theorem c3_collector_accumulates (v : Validator) (r1 : List ValidationError) (v1 : Validator)
    (h0 : v.errors = []) (h1 : v.Validate = some (r1, v1)) :
    v1.Validate = some (r1 ++ r1, { v1 with errors := r1 ++ r1 }) ∧
      (r1 ++ r1 = r1 ↔ r1 = []) := by
  unfold Validator.Validate at h1
  cases hr : validateRun v.filePath v.rootNode with
  | none => rw [hr] at h1; simp at h1
  | some n =>
    rw [hr, h0] at h1
    simp only [List.nil_append, Option.some.injEq, Prod.mk.injEq] at h1
    obtain ⟨hr1, hv1⟩ := h1
    subst hr1
    subst hv1
    constructor
    · unfold Validator.Validate
      dsimp only
      rw [hr]
    · constructor
      · intro h
        have hl := congrArg List.length h
        simp only [List.length_append] at hl
        have : n.length = 0 := by omega
        exact List.length_eq_zero.mp this
      · rintro rfl
        rfl

/-- Witness for the amended C3 on the scenario-B validator. -/
theorem c3_witness :
    v0.errors = [] ∧
    ((⟨"pod.yaml", rootB, errsB⟩ : Validator).Validate =
        some (errsB ++ errsB, ⟨"pod.yaml", rootB, errsB ++ errsB⟩) ∧
      (errsB ++ errsB = errsB ↔ errsB = [])) :=
  ⟨rfl, c3_collector_accumulates v0 errsB ⟨"pod.yaml", rootB, errsB⟩ rfl rfl⟩

/-- Removal of every key/value pair with the given key, walking the
children two at a time exactly as the validator does. -/
def removePairs (f : String) : List Node → List Node
  | k :: v :: rest =>
    if k.value = f then removePairs f rest else k :: v :: removePairs f rest
  | l => l

/-- A node with every pair of the given key removed from its children. -/
def removeKey (f : String) (n : Node) : Node := { n with content := removePairs f n.content }

/-- Removing the pairs with key `f` filters them out of the pair list. -/
theorem pairList_removePairs (f : String) (l : List Node) :
    ∀ ps, pairList l = some ps →
      pairList (removePairs f l) = some (ps.filter (fun kv => kv.1.value != f)) := by
  induction l using pairList.induct with
  | case1 =>
    intro ps h
    simp only [pairList, Option.some.injEq] at h
    subst h
    simp [removePairs, pairList]
  | case2 x => intro ps h; simp [pairList] at h
  | case3 k v rest ih =>
    intro ps h
    unfold pairList at h
    cases hr : pairList rest with
    | none => rw [hr] at h; simp at h
    | some pr =>
      rw [hr] at h
      simp only [Option.map_some', Option.some.injEq] at h
      subst h
      unfold removePairs
      by_cases hk : k.value = f
      · rw [if_pos hk]
        rw [ih pr hr]
        congr 1
        simp [List.filter_cons, hk]
      · rw [if_neg hk]
        unfold pairList
        rw [ih pr hr]
        simp [List.filter_cons, hk]

/-- A `collectErrs` run yields the empty list exactly when every pair's
dispatch yields the empty list. -/
theorem collectErrs_eq_nil_iff {d : Node → Node → Option (List ValidationError)}
    {ps : List (Node × Node)} :
    collectErrs d ps = some [] ↔ ∀ kv ∈ ps, d kv.1 kv.2 = some [] := by
  induction ps with
  | nil => simp [collectErrs]
  | cons kv rest ih =>
    constructor
    · intro h x hx
      unfold collectErrs at h
      cases hf : d kv.1 kv.2 with
      | none => rw [hf] at h; simp at h
      | some es1 =>
        rw [hf] at h
        cases hr : collectErrs d rest with
        | none => rw [hr] at h; simp at h
        | some r =>
          rw [hr] at h
          simp only [Option.some.injEq] at h
          obtain ⟨h1, h2⟩ := List.append_eq_nil.mp h
          subst h1
          subst h2
          rcases List.mem_cons.mp hx with rfl | hx2
          · exact hf
          · exact ih.mp hr x hx2
    · intro h
      unfold collectErrs
      rw [h kv (by simp)]
      rw [ih.mpr (fun x hx => h x (by simp [hx]))]
      rfl

/-- The required-field pass yields no error exactly when every required
field was visited. -/
theorem requiredErrors_eq_nil_iff {fp : String} {line : Nat} {req vis : List String} :
    requiredErrors fp line req vis = [] ↔ ∀ f ∈ req, f ∈ vis := by
  unfold requiredErrors
  rw [List.filterMap_eq_nil_iff]
  constructor
  · intro h f hf
    have hx := h f hf
    by_contra hnv
    rw [if_neg hnv] at hx
    simp at hx
  · intro h f hf
    rw [if_pos (h f hf)]

/-- The required-field pass over the document's field list reports exactly
the one absent field when the other three are present. -/
theorem requiredErrors_doc_single (fp : String) (line : Nat) (vis : List String) (f : String)
    (hf : f ∈ (["apiVersion", "kind", "metadata", "spec"] : List String))
    (hnot : f ∉ vis)
    (hkeep : ∀ g ∈ (["apiVersion", "kind", "metadata", "spec"] : List String),
      g ≠ f → g ∈ vis) :
    requiredErrors fp line ["apiVersion", "kind", "metadata", "spec"] vis =
      [⟨fp, line, f ++ " is required"⟩] := by
  simp only [List.mem_cons, List.not_mem_nil, or_false] at hf
  rcases hf with rfl | rfl | rfl | rfl
  · have h2 := hkeep "kind" (by simp) (by decide)
    have h3 := hkeep "metadata" (by simp) (by decide)
    have h4 := hkeep "spec" (by simp) (by decide)
    simp [requiredErrors, hnot, h2, h3, h4]
  · have h2 := hkeep "apiVersion" (by simp) (by decide)
    have h3 := hkeep "metadata" (by simp) (by decide)
    have h4 := hkeep "spec" (by simp) (by decide)
    simp [requiredErrors, hnot, h2, h3, h4]
  · have h2 := hkeep "apiVersion" (by simp) (by decide)
    have h3 := hkeep "kind" (by simp) (by decide)
    have h4 := hkeep "spec" (by simp) (by decide)
    simp [requiredErrors, hnot, h2, h3, h4]
  · have h2 := hkeep "apiVersion" (by simp) (by decide)
    have h3 := hkeep "kind" (by simp) (by decide)
    have h4 := hkeep "metadata" (by simp) (by decide)
    simp [requiredErrors, hnot, h2, h3, h4]

/-- Claim C4: removing the pairs of any one of the four top-level required
fields from a document that validates cleanly yields exactly one error,
`<field> is required`, at the document node's own line. -/
theorem c4_required_field_detection (fp : String) (doc : Node) (f : String)
    (hvalid : validatePod fp doc = some [])
    (hf : f ∈ (["apiVersion", "kind", "metadata", "spec"] : List String)) :
    validatePod fp (removeKey f doc) = some [⟨fp, doc.line, f ++ " is required"⟩] := by
  unfold validatePod validateObject at hvalid
  cases hpl : pairList doc.content with
  | none => rw [hpl] at hvalid; simp at hvalid
  | some ps =>
    rw [hpl] at hvalid
    dsimp only at hvalid
    cases hce : collectErrs (podDispatch fp) ps with
    | none => rw [hce] at hvalid; simp at hvalid
    | some des =>
      rw [hce] at hvalid
      simp only [Option.some.injEq] at hvalid
      obtain ⟨hdes, hre⟩ := List.append_eq_nil.mp hvalid
      subst hdes
      have hdisp : ∀ kv ∈ ps, podDispatch fp kv.1 kv.2 = some [] :=
        collectErrs_eq_nil_iff.mp hce
      have hvis : ∀ g ∈ (["apiVersion", "kind", "metadata", "spec"] : List String),
          g ∈ ps.map (fun kv => kv.1.value) := requiredErrors_eq_nil_iff.mp hre
      unfold validatePod validateObject removeKey
      dsimp only
      rw [pairList_removePairs f doc.content ps hpl]
      dsimp only
      rw [collectErrs_eq_nil_iff.mpr
        (fun kv hkv => hdisp kv (List.mem_of_mem_filter hkv))]
      have hnot : f ∉ (ps.filter (fun kv => kv.1.value != f)).map (fun kv => kv.1.value) := by
        intro hmem
        rcases List.mem_map.mp hmem with ⟨kv, hkv, hkeq⟩
        have hb := (List.mem_filter.mp hkv).2
        rw [hkeq] at hb
        simp at hb
      have hkeep : ∀ g ∈ (["apiVersion", "kind", "metadata", "spec"] : List String), g ≠ f →
          g ∈ (ps.filter (fun kv => kv.1.value != f)).map (fun kv => kv.1.value) := by
        intro g hg hgf
        rcases List.mem_map.mp (hvis g hg) with ⟨kv, hkv, hkeq⟩
        refine List.mem_map.mpr ⟨kv, List.mem_filter.mpr ⟨hkv, ?_⟩, hkeq⟩
        rw [hkeq]
        simpa using hgf
      rw [requiredErrors_doc_single fp doc.line _ f hf hnot hkeep]
      rfl

/-- Witness for C4: removing `spec` from the valid scenario-A document. -/
theorem c4_witness :
    validatePod "pod.yaml" docA = some [] ∧
    "spec" ∈ (["apiVersion", "kind", "metadata", "spec"] : List String) ∧
    validatePod "pod.yaml" (removeKey "spec" docA) =
      some [⟨"pod.yaml", 1, "spec is required"⟩] :=
  ⟨by decide, by decide,
   c4_required_field_detection "pod.yaml" docA "spec" (by decide) (by decide)⟩

/-- Claim C5: when a spec mapping carries a `containers` key whose value
is an empty sequence, no `containers is required` error is ever produced —
presence of the key, not non-emptiness of the array, satisfies the
required-field check. -/
theorem c5_empty_containers_present (fp : String) (s : Node) (ps : List (Node × Node))
    (hps : pairList s.content = some ps) (k v : Node) (hmem : (k, v) ∈ ps)
    (hk : k.value = "containers") (hkind : v.kind = Kind.sequence) (hempty : v.content = [])
    (huniq : ∀ kv ∈ ps, kv.1.value = "containers" → kv.2 = v)
    (es : List ValidationError) (hval : validateSpec fp s = some es) :
    ∀ e ∈ es, e.message ≠ "containers is required" := by
  unfold validateSpec validateObject at hval
  rw [hps] at hval
  dsimp only at hval
  cases hce : collectErrs (specDispatch fp) ps with
  | none => rw [hce] at hval; simp at hval
  | some des =>
    rw [hce] at hval
    simp only [Option.some.injEq] at hval
    subst hval
    intro e he
    have hin : "containers" ∈ ps.map (fun kv => kv.1.value) :=
      List.mem_map.mpr ⟨(k, v), hmem, hk⟩
    rw [show requiredErrors fp s.line ["containers"] (ps.map (fun kv => kv.1.value)) = []
        from by simp [requiredErrors, hin]] at he
    rw [List.append_nil] at he
    rcases collectErrs_mem hce e he with ⟨kv, hkv, l, hl, hel⟩
    unfold specDispatch at hl
    by_cases hos : kv.1.value = "os"
    · rw [if_pos hos] at hl
      injection hl with hl
      subst hl
      unfold validateOS at hel
      split at hel
      · simp only [List.mem_singleton] at hel
        subst hel
        simp
      · split at hel
        · simp only [List.mem_singleton] at hel
          subst hel
          exact ne_of_data_head 'o' 'c'
            (data_head_append _ _ _ (data_head_append _ _ _ (by decide)))
            (by decide) (by decide)
        · simp at hel
    · rw [if_neg hos] at hl
      by_cases hcont : kv.1.value = "containers"
      · rw [if_pos hcont] at hl
        rw [huniq kv hkv hcont] at hl
        rw [show validateContainers fp v = some [] from by
          unfold validateContainers
          rw [if_neg (by simp [hkind]), hempty]
          rfl] at hl
        injection hl with hl
        subst hl
        simp at hel
      · rw [if_neg hcont] at hl
        injection hl with hl
        subst hl
        simp at hel

/-- Spec mapping for the C5 witness: a bad `os` value and an empty
containers sequence. -/
def specC5 : Node :=
  ⟨Kind.mapping, "", 6,
    [nScalar "os" 6, nScalar "macos" 6,
     nScalar "containers" 7, ⟨Kind.sequence, "", 7, []⟩]⟩

/-- Witness for C5: the empty containers sequence suppresses the required
error; the single remaining error is about os, not containers. -/
theorem c5_witness :
    validateSpec "pod.yaml" specC5 =
      some [⟨"pod.yaml", 6, "os has unsupported value 'macos'"⟩] ∧
    (⟨"pod.yaml", 6, "os has unsupported value 'macos'"⟩ : ValidationError).message ≠
      "containers is required" :=
  ⟨by decide,
   c5_empty_containers_present "pod.yaml" specC5
     [(nScalar "os" 6, nScalar "macos" 6),
      (nScalar "containers" 7, ⟨Kind.sequence, "", 7, []⟩)]
     rfl (nScalar "containers" 7) ⟨Kind.sequence, "", 7, []⟩
     (List.Mem.tail _ (List.Mem.head _)) rfl rfl rfl
     (by
       intro kv hkv hh
       rcases List.mem_cons.mp hkv with rfl | hkv2
       · exact absurd hh (by decide)
       · rcases List.mem_cons.mp hkv2 with rfl | hkv3
         · rfl
         · simp at hkv3)
     [⟨"pod.yaml", 6, "os has unsupported value 'macos'"⟩] (by decide)
     ⟨"pod.yaml", 6, "os has unsupported value 'macos'"⟩ (List.Mem.head _)⟩

/-- Pairing distributes over an append at a pair boundary. -/
theorem pairList_append {a : List Node} {pa : List (Node × Node)}
    (ha : pairList a = some pa) (b : List Node) :
    pairList (a ++ b) = (pairList b).map (fun ps => pa ++ ps) := by
  induction a using pairList.induct generalizing pa with
  | case1 =>
    simp only [pairList, Option.some.injEq] at ha
    subst ha
    simp only [List.nil_append]
    cases h : pairList b <;> simp [h]
  | case2 x => simp [pairList] at ha
  | case3 k v rest ih =>
    unfold pairList at ha
    cases hr : pairList rest with
    | none => rw [hr] at ha; simp at ha
    | some pr =>
      rw [hr] at ha
      simp only [Option.map_some', Option.some.injEq] at ha
      subst ha
      rw [List.cons_append, List.cons_append]
      rw [show pairList (k :: v :: (rest ++ b)) =
          (pairList (rest ++ b)).map (fun ps => (k, v) :: ps) from rfl]
      rw [ih hr]
      cases h : pairList b <;> simp [h]

/-- Error collection distributes over appended pair lists. -/
theorem collectErrs_append (d : Node → Node → Option (List ValidationError))
    (x y : List (Node × Node)) :
    collectErrs d (x ++ y) =
      (collectErrs d x).bind (fun l1 => (collectErrs d y).map (fun l2 => l1 ++ l2)) := by
  induction x with
  | nil => cases h : collectErrs d y <;> simp [collectErrs, h]
  | cons kv rest ih =>
    cases hf : d kv.1 kv.2 with
    | none => simp [collectErrs, hf]
    | some es1 =>
      cases hr : collectErrs d rest with
      | none => simp [collectErrs, hf, hr, ih]
      | some r =>
        cases hy : collectErrs d y with
        | none => simp [collectErrs, hf, hr, hy, ih]
        | some l2 => simp [collectErrs, hf, hr, hy, ih, List.append_assoc]

/-- Inserting a key no required field mentions does not change the
required-field pass. -/
theorem requiredErrors_visited_insert (fp : String) (line : Nat) (req : List String)
    (x y : List String) (kv : String) :
    (∀ f ∈ req, f ≠ kv) →
      requiredErrors fp line req (x ++ kv :: y) = requiredErrors fp line req (x ++ y) := by
  unfold requiredErrors
  induction req with
  | nil => intro _; rfl
  | cons g gs ih =>
    intro h
    rw [List.filterMap_cons, List.filterMap_cons]
    have hg : g ≠ kv := h g (by simp)
    have hmem : (g ∈ x ++ kv :: y) ↔ (g ∈ x ++ y) := by
      simp [List.mem_append, List.mem_cons, hg]
    rw [ih (fun f hf => h f (List.mem_cons_of_mem g hf))]
    by_cases hgm : g ∈ x ++ y
    · rw [if_pos hgm, if_pos (hmem.mpr hgm)]
    · rw [if_neg hgm, if_neg (fun hc => hgm (hmem.mp hc))]

/-- Inserting one pair whose key the dispatch ignores and no required
field mentions leaves an object validator's result unchanged. -/
theorem validateObject_insert_unknown (fp : String)
    (d : Node → Node → Option (List ValidationError)) (req : List String)
    (nk : Kind) (nv : String) (ln : Nat) (a b : List Node) (k v : Node)
    (pa : List (Node × Node)) (ha : pairList a = some pa) (hd : d k v = some [])
    (hreq : ∀ f ∈ req, f ≠ k.value) :
    validateObject fp d req ⟨nk, nv, ln, a ++ k :: v :: b⟩ =
      validateObject fp d req ⟨nk, nv, ln, a ++ b⟩ := by
  unfold validateObject
  dsimp only
  rw [pairList_append ha (k :: v :: b), pairList_append ha b]
  cases hb : pairList b with
  | none =>
    rw [show pairList (k :: v :: b) = none from by simp [pairList, hb]]
  | some pb =>
    rw [show pairList (k :: v :: b) = some ((k, v) :: pb) from by simp [pairList, hb]]
    dsimp only [Option.map_some']
    have hkv : collectErrs d ((k, v) :: pb) = collectErrs d pb := by
      cases hcb : collectErrs d pb with
      | none => simp [collectErrs, hd, hcb]
      | some r => simp [collectErrs, hd, hcb]
    rw [collectErrs_append, collectErrs_append, hkv]
    cases hca : collectErrs d pa with
    | none => rfl
    | some la =>
      cases hcb : collectErrs d pb with
      | none => rfl
      | some lb =>
        simp only [Option.some_bind, Option.map_some']
        rw [show (pa ++ (k, v) :: pb).map (fun kv => kv.1.value) =
            (pa.map fun kv => kv.1.value) ++ k.value :: (pb.map fun kv => kv.1.value) from by
          simp]
        rw [show (pa ++ pb).map (fun kv => kv.1.value) =
            (pa.map fun kv => kv.1.value) ++ (pb.map fun kv => kv.1.value) from by simp]
        rw [requiredErrors_visited_insert fp ln req _ _ _ hreq]

/-- An unknown key falls through to the empty branch of the pod dispatch. -/
theorem podDispatch_unknown (fp : String) (k v : Node)
    (h : k.value ∉ (["apiVersion", "kind", "metadata", "spec"] : List String)) :
    podDispatch fp k v = some [] := by
  simp only [List.mem_cons, List.not_mem_nil, or_false, not_or] at h
  obtain ⟨h1, h2, h3, h4⟩ := h
  unfold podDispatch
  rw [if_neg h1, if_neg h2, if_neg h3, if_neg h4]

/-- An unknown key falls through to the empty branch of the metadata
dispatch. -/
theorem metadataDispatch_unknown (fp : String) (k v : Node)
    (h : k.value ∉ (["name", "labels"] : List String)) :
    metadataDispatch fp k v = some [] := by
  simp only [List.mem_cons, List.not_mem_nil, or_false, not_or] at h
  obtain ⟨h1, h2⟩ := h
  unfold metadataDispatch
  rw [if_neg h1, if_neg h2]

/-- An unknown key falls through to the empty branch of the spec dispatch. -/
theorem specDispatch_unknown (fp : String) (k v : Node)
    (h : k.value ∉ (["os", "containers"] : List String)) :
    specDispatch fp k v = some [] := by
  simp only [List.mem_cons, List.not_mem_nil, or_false, not_or] at h
  obtain ⟨h1, h2⟩ := h
  unfold specDispatch
  rw [if_neg h1, if_neg h2]

/-- An unknown key falls through to the empty branch of the container
dispatch. -/
theorem containerDispatch_unknown (fp : String) (k v : Node)
    (h : k.value ∉ (["name", "image", "ports", "readinessProbe", "livenessProbe",
      "resources"] : List String)) :
    containerDispatch fp k v = some [] := by
  simp only [List.mem_cons, List.not_mem_nil, or_false, not_or] at h
  obtain ⟨h1, h2, h3, h4, h5, h6⟩ := h
  unfold containerDispatch
  rw [if_neg h1, if_neg h2, if_neg h3, if_neg h4, if_neg h5, if_neg h6]

/-- An unknown key falls through to the empty branch of the port dispatch. -/
theorem portDispatch_unknown (fp : String) (k v : Node)
    (h : k.value ∉ (["containerPort", "protocol"] : List String)) :
    portDispatch fp k v = some [] := by
  simp only [List.mem_cons, List.not_mem_nil, or_false, not_or] at h
  obtain ⟨h1, h2⟩ := h
  unfold portDispatch
  rw [if_neg h1, if_neg h2]

/-- An unknown key falls through to the empty branch of the probe dispatch. -/
theorem probeDispatch_unknown (fp : String) (k v : Node)
    (h : k.value ∉ (["httpGet"] : List String)) :
    probeDispatch fp k v = some [] := by
  simp only [List.mem_cons, List.not_mem_nil, or_false, not_or] at h
  unfold probeDispatch
  rw [if_neg h]

/-- An unknown key falls through to the empty branch of the httpGet
dispatch. -/
theorem httpGetDispatch_unknown (fp : String) (k v : Node)
    (h : k.value ∉ (["path", "port"] : List String)) :
    httpGetDispatch fp k v = some [] := by
  simp only [List.mem_cons, List.not_mem_nil, or_false, not_or] at h
  obtain ⟨h1, h2⟩ := h
  unfold httpGetDispatch
  rw [if_neg h1, if_neg h2]

/-- Labels mapping used as the insertion target in the C8 counterexample. -/
def metadataL : Node :=
  ⟨Kind.mapping, "", 4,
    [nScalar "name" 4, nScalar "web" 4,
     nScalar "labels" 5, ⟨Kind.mapping, "", 5, []⟩]⟩

/-- Scenario A with an empty labels mapping; validates cleanly. -/
def docL : Node :=
  ⟨Kind.mapping, "", 1,
    [nScalar "apiVersion" 1, nScalar "v1" 1,
     nScalar "kind" 2, nScalar "Pod" 2,
     nScalar "metadata" 3, metadataL,
     nScalar "spec" 6, specA]⟩

/-- Root of the labels document before insertion. -/
def rootL : Node := ⟨Kind.document, "", 1, [docL]⟩

/-- The labels document after inserting the pair `extra: []` (a sequence
value) into the labels mapping. -/
def docLins : Node :=
  ⟨Kind.mapping, "", 1,
    [nScalar "apiVersion" 1, nScalar "v1" 1,
     nScalar "kind" 2, nScalar "Pod" 2,
     nScalar "metadata" 3,
     ⟨Kind.mapping, "", 4,
       [nScalar "name" 4, nScalar "web" 4,
        nScalar "labels" 5,
        ⟨Kind.mapping, "", 5, [nScalar "extra" 6, ⟨Kind.sequence, "", 6, []⟩]⟩]⟩,
     nScalar "spec" 6, specA]⟩

/-- Root of the labels document after insertion. -/
def rootLins : Node := ⟨Kind.document, "", 1, [docLins]⟩

/-- Claim C8, counterexample: inserting the pair `extra: []` into a labels
mapping — a key that is not among any declared field names — changes the
validation result, because the labels validator checks every entry's
value. -/
theorem c8_counterexample :
    validateRun "pod.yaml" rootL = some [] ∧
    validateRun "pod.yaml" rootLins = some [⟨"pod.yaml", 6, "label value must be string"⟩] ∧
    validateRun "pod.yaml" rootLins ≠ validateRun "pod.yaml" rootL := by
  refine ⟨by decide, by decide, by decide⟩

/-- Claim C8 (amended): inserting a key/value pair at a pair boundary into
one of the fixed-shape object mappings — document, metadata, spec,
container, port, probe, httpGet, or a resource-requirements entry — with a
key unknown to that shape leaves that validator's result unchanged; the
open mappings (labels and the resources map), whose every entry is
validated, are excluded. -/
theorem c8_unknown_keys_ignored :
    (∀ (fp : String) (nk : Kind) (nv : String) (ln : Nat) (a b : List Node) (k v : Node)
      (pa : List (Node × Node)), pairList a = some pa →
      k.value ∉ (["apiVersion", "kind", "metadata", "spec"] : List String) →
      validatePod fp ⟨nk, nv, ln, a ++ k :: v :: b⟩ = validatePod fp ⟨nk, nv, ln, a ++ b⟩) ∧
    (∀ (fp : String) (nk : Kind) (nv : String) (ln : Nat) (a b : List Node) (k v : Node)
      (pa : List (Node × Node)), pairList a = some pa →
      k.value ∉ (["name", "labels"] : List String) →
      validateMetadata fp ⟨nk, nv, ln, a ++ k :: v :: b⟩ =
        validateMetadata fp ⟨nk, nv, ln, a ++ b⟩) ∧
    (∀ (fp : String) (nk : Kind) (nv : String) (ln : Nat) (a b : List Node) (k v : Node)
      (pa : List (Node × Node)), pairList a = some pa →
      k.value ∉ (["os", "containers"] : List String) →
      validateSpec fp ⟨nk, nv, ln, a ++ k :: v :: b⟩ = validateSpec fp ⟨nk, nv, ln, a ++ b⟩) ∧
    (∀ (fp : String) (nk : Kind) (nv : String) (ln : Nat) (a b : List Node) (k v : Node)
      (pa : List (Node × Node)), pairList a = some pa →
      k.value ∉ (["name", "image", "ports", "readinessProbe", "livenessProbe",
        "resources"] : List String) →
      validateContainer fp ⟨nk, nv, ln, a ++ k :: v :: b⟩ =
        validateContainer fp ⟨nk, nv, ln, a ++ b⟩) ∧
    (∀ (fp : String) (nk : Kind) (nv : String) (ln : Nat) (a b : List Node) (k v : Node)
      (pa : List (Node × Node)), pairList a = some pa →
      k.value ∉ (["containerPort", "protocol"] : List String) →
      validatePort fp ⟨nk, nv, ln, a ++ k :: v :: b⟩ = validatePort fp ⟨nk, nv, ln, a ++ b⟩) ∧
    (∀ (fp : String) (nk : Kind) (nv : String) (ln : Nat) (a b : List Node) (k v : Node)
      (pa : List (Node × Node)), pairList a = some pa →
      k.value ∉ (["httpGet"] : List String) →
      validateProbe fp ⟨nk, nv, ln, a ++ k :: v :: b⟩ = validateProbe fp ⟨nk, nv, ln, a ++ b⟩) ∧
    (∀ (fp : String) (nk : Kind) (nv : String) (ln : Nat) (a b : List Node) (k v : Node)
      (pa : List (Node × Node)), pairList a = some pa →
      k.value ∉ (["path", "port"] : List String) →
      validateHTTPGet fp ⟨nk, nv, ln, a ++ k :: v :: b⟩ =
        validateHTTPGet fp ⟨nk, nv, ln, a ++ b⟩) ∧
    (∀ (fp : String) (nk : Kind) (nv : String) (ln : Nat) (a b : List Node) (k v : Node)
      (pa : List (Node × Node)), pairList a = some pa →
      k.value ∉ (["cpu", "memory"] : List String) →
      validateResourceRequirements fp ⟨nk, nv, ln, a ++ k :: v :: b⟩ =
        validateResourceRequirements fp ⟨nk, nv, ln, a ++ b⟩) := by
  refine ⟨?_, ?_, ?_, ?_, ?_, ?_, ?_, ?_⟩
  · intro fp nk nv ln a b k v pa ha hk
    refine validateObject_insert_unknown fp _ _ nk nv ln a b k v pa ha
      (podDispatch_unknown fp k v hk) ?_
    intro f hf heq
    subst heq
    exact hk hf
  · intro fp nk nv ln a b k v pa ha hk
    refine validateObject_insert_unknown fp _ _ nk nv ln a b k v pa ha
      (metadataDispatch_unknown fp k v hk) ?_
    intro f hf heq
    subst heq
    apply hk
    simp only [List.mem_cons, List.not_mem_nil, or_false] at hf ⊢
    tauto
  · intro fp nk nv ln a b k v pa ha hk
    refine validateObject_insert_unknown fp _ _ nk nv ln a b k v pa ha
      (specDispatch_unknown fp k v hk) ?_
    intro f hf heq
    subst heq
    apply hk
    simp only [List.mem_cons, List.not_mem_nil, or_false] at hf ⊢
    tauto
  · intro fp nk nv ln a b k v pa ha hk
    refine validateObject_insert_unknown fp _ _ nk nv ln a b k v pa ha
      (containerDispatch_unknown fp k v hk) ?_
    intro f hf heq
    subst heq
    apply hk
    simp only [List.mem_cons, List.not_mem_nil, or_false] at hf ⊢
    tauto
  · intro fp nk nv ln a b k v pa ha hk
    refine validateObject_insert_unknown fp _ _ nk nv ln a b k v pa ha
      (portDispatch_unknown fp k v hk) ?_
    intro f hf heq
    subst heq
    apply hk
    simp only [List.mem_cons, List.not_mem_nil, or_false] at hf ⊢
    tauto
  · intro fp nk nv ln a b k v pa ha hk
    refine validateObject_insert_unknown fp _ _ nk nv ln a b k v pa ha
      (probeDispatch_unknown fp k v hk) ?_
    intro f hf heq
    subst heq
    exact hk hf
  · intro fp nk nv ln a b k v pa ha hk
    refine validateObject_insert_unknown fp _ _ nk nv ln a b k v pa ha
      (httpGetDispatch_unknown fp k v hk) ?_
    intro f hf heq
    subst heq
    exact hk hf
  · intro fp nk nv ln a b k v pa ha hk
    simp only [List.mem_cons, List.not_mem_nil, or_false, not_or] at hk
    obtain ⟨h1, h2⟩ := hk
    unfold validateResourceRequirements
    dsimp only
    rw [pairList_append ha (k :: v :: b), pairList_append ha b]
    cases hb : pairList b with
    | none =>
      rw [show pairList (k :: v :: b) = none from by simp [pairList, hb]]
    | some pb =>
      rw [show pairList (k :: v :: b) = some ((k, v) :: pb) from by simp [pairList, hb]]
      dsimp only [Option.map_some']
      congr 1
      simp [h1, h2]

/-- Witness for the amended C8: inserting `extraneous: x` into an empty
node of each fixed shape leaves each validator's result unchanged. -/
theorem c8_witness :
    validatePod "f" ⟨Kind.mapping, "", 1, [nScalar "extraneous" 1, nScalar "x" 1]⟩ =
      validatePod "f" ⟨Kind.mapping, "", 1, []⟩ ∧
    validateMetadata "f" ⟨Kind.mapping, "", 1, [nScalar "extraneous" 1, nScalar "x" 1]⟩ =
      validateMetadata "f" ⟨Kind.mapping, "", 1, []⟩ ∧
    validateSpec "f" ⟨Kind.mapping, "", 1, [nScalar "extraneous" 1, nScalar "x" 1]⟩ =
      validateSpec "f" ⟨Kind.mapping, "", 1, []⟩ ∧
    validateContainer "f" ⟨Kind.mapping, "", 1, [nScalar "extraneous" 1, nScalar "x" 1]⟩ =
      validateContainer "f" ⟨Kind.mapping, "", 1, []⟩ ∧
    validatePort "f" ⟨Kind.mapping, "", 1, [nScalar "extraneous" 1, nScalar "x" 1]⟩ =
      validatePort "f" ⟨Kind.mapping, "", 1, []⟩ ∧
    validateProbe "f" ⟨Kind.mapping, "", 1, [nScalar "extraneous" 1, nScalar "x" 1]⟩ =
      validateProbe "f" ⟨Kind.mapping, "", 1, []⟩ ∧
    validateHTTPGet "f" ⟨Kind.mapping, "", 1, [nScalar "extraneous" 1, nScalar "x" 1]⟩ =
      validateHTTPGet "f" ⟨Kind.mapping, "", 1, []⟩ ∧
    validateResourceRequirements "f"
        ⟨Kind.mapping, "", 1, [nScalar "extraneous" 1, nScalar "x" 1]⟩ =
      validateResourceRequirements "f" ⟨Kind.mapping, "", 1, []⟩ :=
  ⟨c8_unknown_keys_ignored.1 "f" Kind.mapping "" 1 [] [] (nScalar "extraneous" 1)
      (nScalar "x" 1) [] rfl (by decide),
   c8_unknown_keys_ignored.2.1 "f" Kind.mapping "" 1 [] [] (nScalar "extraneous" 1)
      (nScalar "x" 1) [] rfl (by decide),
   c8_unknown_keys_ignored.2.2.1 "f" Kind.mapping "" 1 [] [] (nScalar "extraneous" 1)
      (nScalar "x" 1) [] rfl (by decide),
   c8_unknown_keys_ignored.2.2.2.1 "f" Kind.mapping "" 1 [] [] (nScalar "extraneous" 1)
      (nScalar "x" 1) [] rfl (by decide),
   c8_unknown_keys_ignored.2.2.2.2.1 "f" Kind.mapping "" 1 [] [] (nScalar "extraneous" 1)
      (nScalar "x" 1) [] rfl (by decide),
   c8_unknown_keys_ignored.2.2.2.2.2.1 "f" Kind.mapping "" 1 [] [] (nScalar "extraneous" 1)
      (nScalar "x" 1) [] rfl (by decide),
   c8_unknown_keys_ignored.2.2.2.2.2.2.1 "f" Kind.mapping "" 1 [] [] (nScalar "extraneous" 1)
      (nScalar "x" 1) [] rfl (by decide),
   c8_unknown_keys_ignored.2.2.2.2.2.2.2 "f" Kind.mapping "" 1 [] [] (nScalar "extraneous" 1)
      (nScalar "x" 1) [] rfl (by decide)⟩

mutual

/-- Every Mapping node in the tree has an even number of children (the
tree-shape invariant stated by the specification). -/
def mappingsEven : Node → Bool
  | Node.mk k _ _ cs => ((k != Kind.mapping) || (cs.length % 2 == 0)) && mappingsEvenList cs

/-- List form of `mappingsEven`. -/
def mappingsEvenList : List Node → Bool
  | [] => true
  | c :: cs => mappingsEven c && mappingsEvenList cs

end

mutual

/-- Every node in the tree, of any kind, has an even number of children. -/
def nodesEven : Node → Bool
  | Node.mk _ _ _ cs => (cs.length % 2 == 0) && nodesEvenList cs

/-- List form of `nodesEven`. -/
def nodesEvenList : List Node → Bool
  | [] => true
  | c :: cs => nodesEven c && nodesEvenList cs

end

/-- Members of an all-even list of nodes are all-even. -/
theorem nodesEvenList_mem (l : List Node) :
    nodesEvenList l = true → ∀ c ∈ l, nodesEven c = true := by
  induction l with
  | nil => intro _ c hc; simp at hc
  | cons x xs ih =>
    intro h c hc
    unfold nodesEvenList at h
    rw [Bool.and_eq_true] at h
    rcases List.mem_cons.mp hc with rfl | hc2
    · exact h.1
    · exact ih h.2 c hc2

/-- An all-even node has even child count and all-even children. -/
theorem nodesEven_parts {n : Node} (h : nodesEven n = true) :
    n.content.length % 2 = 0 ∧ ∀ c ∈ n.content, nodesEven c = true := by
  cases n with
  | mk k v ln cs =>
    unfold nodesEven at h
    rw [Bool.and_eq_true] at h
    exact ⟨by simpa using h.1, nodesEvenList_mem cs h.2⟩

/-- Pairing succeeds on an even-length list. -/
theorem pairList_of_even (l : List Node) :
    l.length % 2 = 0 → ∃ ps, pairList l = some ps := by
  induction l using pairList.induct with
  | case1 => intro _; exact ⟨[], rfl⟩
  | case2 x => intro h; simp at h
  | case3 k v rest ih =>
    intro h
    have h2 : rest.length % 2 = 0 := by
      simp only [List.length_cons] at h
      omega
    rcases ih h2 with ⟨ps, hps⟩
    exact ⟨(k, v) :: ps, by simp [pairList, hps]⟩

/-- Components of the produced pairs are members of the original list. -/
theorem pairList_mem (l : List Node) :
    ∀ ps, pairList l = some ps → ∀ kv ∈ ps, kv.1 ∈ l ∧ kv.2 ∈ l := by
  induction l using pairList.induct with
  | case1 =>
    intro ps h kv hkv
    simp only [pairList, Option.some.injEq] at h
    subst h
    simp at hkv
  | case2 x => intro ps h kv hkv; simp [pairList] at h
  | case3 k v rest ih =>
    intro ps h kv hkv
    unfold pairList at h
    cases hr : pairList rest with
    | none => rw [hr] at h; simp at h
    | some pr =>
      rw [hr] at h
      simp only [Option.map_some', Option.some.injEq] at h
      subst h
      rcases List.mem_cons.mp hkv with rfl | h2
      · exact ⟨by simp, by simp⟩
      · have hm := ih pr hr kv h2
        exact ⟨by simp [hm.1], by simp [hm.2]⟩

/-- A pair traversal over dispatches that all succeed succeeds. -/
theorem collectErrs_total {d : Node → Node → Option (List ValidationError)} :
    ∀ ps : List (Node × Node), (∀ kv ∈ ps, ∃ es, d kv.1 kv.2 = some es) →
      ∃ es, collectErrs d ps = some es := by
  intro ps
  induction ps with
  | nil => intro _; exact ⟨[], rfl⟩
  | cons kv rest ih =>
    intro h
    rcases h kv (by simp) with ⟨es1, h1⟩
    rcases ih (fun x hx => h x (by simp [hx])) with ⟨r, h2⟩
    exact ⟨es1 ++ r, by simp [collectErrs, h1, h2]⟩

/-- An element traversal over validators that all succeed succeeds. -/
theorem collectList_total {f : Node → Option (List ValidationError)} :
    ∀ l : List Node, (∀ x ∈ l, ∃ es, f x = some es) →
      ∃ es, collectList f l = some es := by
  intro l
  induction l with
  | nil => intro _; exact ⟨[], rfl⟩
  | cons n rest ih =>
    intro h
    rcases h n (by simp) with ⟨es1, h1⟩
    rcases ih (fun x hx => h x (by simp [hx])) with ⟨r, h2⟩
    exact ⟨es1 ++ r, by simp [collectList, h1, h2]⟩

/-- An object validator is total on an even-child node whose dispatches
are total. -/
theorem validateObject_total (fp : String) (d : Node → Node → Option (List ValidationError))
    (req : List String) (n : Node) (he : n.content.length % 2 = 0)
    (hd : ∀ k v : Node, k ∈ n.content → v ∈ n.content → ∃ es, d k v = some es) :
    ∃ es, validateObject fp d req n = some es := by
  rcases pairList_of_even n.content he with ⟨ps, hps⟩
  rcases collectErrs_total ps (fun kv hkv =>
    hd kv.1 kv.2 (pairList_mem n.content ps hps kv hkv).1
      (pairList_mem n.content ps hps kv hkv).2) with ⟨des, hdes⟩
  exact ⟨_, by unfold validateObject; rw [hps]; dsimp only; rw [hdes]⟩

/-- `validatePort` is total on all-even subtrees. -/
theorem validatePort_total (fp : String) (n : Node) (h : nodesEven n = true) :
    ∃ es, validatePort fp n = some es := by
  refine validateObject_total fp _ _ n (nodesEven_parts h).1 ?_
  intro k v _ _
  unfold portDispatch
  split
  · exact ⟨_, rfl⟩
  · split
    · exact ⟨_, rfl⟩
    · exact ⟨_, rfl⟩

/-- `validatePorts` is total on all-even subtrees. -/
theorem validatePorts_total (fp : String) (n : Node) (h : nodesEven n = true) :
    ∃ es, validatePorts fp n = some es := by
  unfold validatePorts
  split
  · exact ⟨_, rfl⟩
  · exact collectList_total n.content
      (fun x hx => validatePort_total fp x ((nodesEven_parts h).2 x hx))

/-- `validateHTTPGet` is total on all-even subtrees. -/
theorem validateHTTPGet_total (fp : String) (n : Node) (h : nodesEven n = true) :
    ∃ es, validateHTTPGet fp n = some es := by
  refine validateObject_total fp _ _ n (nodesEven_parts h).1 ?_
  intro k v _ _
  unfold httpGetDispatch
  split
  · exact ⟨_, rfl⟩
  · split
    · exact ⟨_, rfl⟩
    · exact ⟨_, rfl⟩

/-- `validateProbe` is total on all-even subtrees. -/
theorem validateProbe_total (fp : String) (n : Node) (h : nodesEven n = true) :
    ∃ es, validateProbe fp n = some es := by
  refine validateObject_total fp _ _ n (nodesEven_parts h).1 ?_
  intro k v _ hv
  unfold probeDispatch
  split
  · exact validateHTTPGet_total fp v ((nodesEven_parts h).2 v hv)
  · exact ⟨_, rfl⟩

/-- `validateResourceRequirements` is total on all-even subtrees. -/
theorem validateResourceRequirements_total (fp : String) (n : Node)
    (h : nodesEven n = true) : ∃ es, validateResourceRequirements fp n = some es := by
  rcases pairList_of_even n.content (nodesEven_parts h).1 with ⟨ps, hps⟩
  exact ⟨_, by unfold validateResourceRequirements; rw [hps]⟩

/-- `validateResources` is total on all-even subtrees. -/
theorem validateResources_total (fp : String) (n : Node) (h : nodesEven n = true) :
    ∃ es, validateResources fp n = some es := by
  rcases pairList_of_even n.content (nodesEven_parts h).1 with ⟨ps, hps⟩
  have hall : ∀ x ∈ ps.map (fun kv => kv.2),
      ∃ es, validateResourceRequirements fp x = some es := by
    intro x hx
    rcases List.mem_map.mp hx with ⟨kv, hkv, rfl⟩
    exact validateResourceRequirements_total fp kv.2
      ((nodesEven_parts h).2 kv.2 (pairList_mem n.content ps hps kv hkv).2)
  rcases collectList_total (ps.map (fun kv => kv.2)) hall with ⟨es, hes⟩
  exact ⟨es, by unfold validateResources; rw [hps]; dsimp only; rw [hes]⟩

/-- `validateLabels` is total on all-even subtrees. -/
theorem validateLabels_total (fp : String) (n : Node) (h : nodesEven n = true) :
    ∃ es, validateLabels fp n = some es := by
  unfold validateLabels
  split
  · exact ⟨_, rfl⟩
  · rcases pairList_of_even n.content (nodesEven_parts h).1 with ⟨ps, hps⟩
    rw [hps]
    exact ⟨_, rfl⟩

/-- `validateContainer` is total on all-even subtrees. -/
theorem validateContainer_total (fp : String) (n : Node) (h : nodesEven n = true) :
    ∃ es, validateContainer fp n = some es := by
  refine validateObject_total fp _ _ n (nodesEven_parts h).1 ?_
  intro k v _ hv
  have hve := (nodesEven_parts h).2 v hv
  unfold containerDispatch
  split
  · exact ⟨_, rfl⟩
  · split
    · exact ⟨_, rfl⟩
    · split
      · exact validatePorts_total fp v hve
      · split
        · exact validateProbe_total fp v hve
        · split
          · exact validateProbe_total fp v hve
          · split
            · exact validateResources_total fp v hve
            · exact ⟨_, rfl⟩

/-- `validateContainers` is total on all-even subtrees. -/
theorem validateContainers_total (fp : String) (n : Node) (h : nodesEven n = true) :
    ∃ es, validateContainers fp n = some es := by
  unfold validateContainers
  split
  · exact ⟨_, rfl⟩
  · exact collectList_total n.content
      (fun x hx => validateContainer_total fp x ((nodesEven_parts h).2 x hx))

/-- `validateSpec` is total on all-even subtrees. -/
theorem validateSpec_total (fp : String) (n : Node) (h : nodesEven n = true) :
    ∃ es, validateSpec fp n = some es := by
  refine validateObject_total fp _ _ n (nodesEven_parts h).1 ?_
  intro k v _ hv
  unfold specDispatch
  split
  · exact ⟨_, rfl⟩
  · split
    · exact validateContainers_total fp v ((nodesEven_parts h).2 v hv)
    · exact ⟨_, rfl⟩

/-- `validateMetadata` is total on all-even subtrees. -/
theorem validateMetadata_total (fp : String) (n : Node) (h : nodesEven n = true) :
    ∃ es, validateMetadata fp n = some es := by
  refine validateObject_total fp _ _ n (nodesEven_parts h).1 ?_
  intro k v _ hv
  unfold metadataDispatch
  split
  · exact ⟨_, rfl⟩
  · split
    · exact validateLabels_total fp v ((nodesEven_parts h).2 v hv)
    · exact ⟨_, rfl⟩

/-- `validatePod` is total on all-even subtrees. -/
theorem validatePod_total (fp : String) (n : Node) (h : nodesEven n = true) :
    ∃ es, validatePod fp n = some es := by
  refine validateObject_total fp _ _ n (nodesEven_parts h).1 ?_
  intro k v _ hv
  have hve := (nodesEven_parts h).2 v hv
  unfold podDispatch
  split
  · exact ⟨_, rfl⟩
  · split
    · exact ⟨_, rfl⟩
    · split
      · exact validateMetadata_total fp v hve
      · split
        · exact validateSpec_total fp v hve
        · exact ⟨_, rfl⟩

/-- Document tree whose Mapping nodes (there are none) all have evenly
many children, yet whose document is a sequence of three scalars. -/
def badRoot : Node :=
  ⟨Kind.document, "", 1,
    [⟨Kind.sequence, "", 2, [nScalar "a" 2, nScalar "b" 3, nScalar "c" 4]⟩]⟩

/-- Claim C9, counterexample: every Mapping node of `badRoot` has evenly
many children, yet `Validate` walks the odd sequence document with the
key/value loop, indexes out of range, and never returns an error list. -/
theorem c9_counterexample :
    mappingsEven badRoot = true ∧ validateRun "pod.yaml" badRoot = none := by
  constructor <;> decide

/-- Claim C9 (amended): `Validate` is total — it returns an error list
regardless of the documents' content — whenever every node of the
document trees under the root, of any kind and not only the Mapping
nodes, has an even number of children. -/
theorem c9_totality (fp : String) (root : Node)
    (h : root.content.all nodesEven = true) :
    (validateRun fp root).isSome = true := by
  rcases collectList_total root.content (fun d hd =>
    validatePod_total fp d (List.all_eq_true.mp h d hd)) with ⟨es, hes⟩
  unfold validateRun
  rw [hes]
  rfl

/-- Spec mapping with an empty containers sequence, all children even. -/
def specA0 : Node :=
  ⟨Kind.mapping, "", 6, [nScalar "containers" 6, ⟨Kind.sequence, "", 6, []⟩]⟩

/-- All-even variant of the scenario-A document. -/
def docA0 : Node :=
  ⟨Kind.mapping, "", 1,
    [nScalar "apiVersion" 1, nScalar "v1" 1,
     nScalar "kind" 2, nScalar "Pod" 2,
     nScalar "metadata" 3, metadataA,
     nScalar "spec" 5, specA0]⟩

/-- Root of the all-even document. -/
def rootA0 : Node := ⟨Kind.document, "", 1, [docA0]⟩

/-- Witness for the amended C9 on the all-even document. -/
theorem c9_witness :
    rootA0.content.all nodesEven = true ∧ (validateRun "pod.yaml" rootA0).isSome = true :=
  ⟨by decide, c9_totality "pod.yaml" rootA0 (by decide)⟩

end YamlValidator

